import Mathlib

/-!
Verification development for the `BasicRegexEngine` repository
(`src/match.py`).

Python strings are modelled as `List Char`; Python `str.lower()` is
modelled per character with `Char.toLower` (the engine is ASCII-oriented).
A Python exception raised by `validate_pattern` is modelled with
`Except String`; the recursive matcher `match_helper` is modelled with an
explicit recursion-depth budget (`fuel`): the result `none` at every fuel
models a Python `RecursionError` (the source recursion is genuinely
non-terminating on some inputs, as proved below), while `some b` is the
boolean the Python function returns.  The `lru_cache` memoisation of the
source is semantically transparent (the function is pure) and is not
modelled.

Source: `src/match.py`.
-/

deriving instance DecidableEq for Except

/-- Faithful model of the substring test `qq in pattern` used by
`validate_pattern` (lines 10-15): the two-character string `qq` occurs
contiguously in `pattern`. -/
def hasDouble (q : Char) : List Char → Bool
  | a :: b :: rest => (a == q && b == q) || hasDouble q (b :: rest)
  | _ => false

/-- `validate_pattern` (src/match.py lines 4-18).  Raises `ValueError`
(modelled as `Except.error`) for a leading or doubled quantifier and for
unbalanced brackets; otherwise returns `True`. -/
def validate_pattern (pattern : List Char) : Except String Bool :=
  if pattern.contains '*' && (pattern.head? == some '*' || hasDouble '*' pattern) then
    Except.error "Invalid pattern: * must follow a character or group."
  else if pattern.contains '+' && (pattern.head? == some '+' || hasDouble '+' pattern) then
    Except.error "Invalid pattern: + must follow a character or group."
  else if pattern.contains '?' && (pattern.head? == some '?' || hasDouble '?' pattern) then
    Except.error "Invalid pattern: ? must follow a character or group."
  else if pattern.count '[' != pattern.count ']' then
    Except.error "Unbalanced brackets in pattern."
  else
    Except.ok true

/-- The set of characters collected by the `while i < end` loop of
`char_matches` (src/match.py lines 45-51), applied to the class body
(the characters strictly between `[` (plus the `^`, when present) and the
first `]`).  A two-character range `a-z` is expanded with
`range(ord(a), ord(z)+1)`; the range form is only recognised when at least
one more body character follows the `-` (`i + 2 < end`). -/
def classSetChars : List Char → List Char
  | a :: '-' :: b :: rest =>
      (List.range' a.toNat (b.toNat + 1 - a.toNat)).map Char.ofNat ++ classSetChars rest
  | a :: rest => a :: classSetChars rest
  | [] => []

/-- Membership of the tested text character in the class set, as Python
evaluates `c in chars`: `c` is either a one-character string or the empty
sentinel `''` (modelled as `[]`), and the empty sentinel is a member of no
set of one-character strings. -/
def strMem (c : List Char) (chars : List Char) : Bool :=
  match c with
  | [ch] => chars.contains ch
  | _ => false

/-- `char_matches` (src/match.py lines 39-53), the nested helper of
`match_helper`.  `c` is `text[0] if text else ''` modelled as a list of
at most one character.  Returns whether the first pattern token accepts
`c`, together with the pattern slice after that token.  Note the literal
branch (line 53) compares `c` with the whole remaining pattern `p`
(`c == p or p == '.'`), exactly as the source does. -/
def char_matches (c : List Char) (p : List Char) : Bool × List Char :=
  if p.head? == some '[' && p.contains ']' then
    let ps := p.tail
    let bodyAll := ps.takeWhile (fun ch => ch != ']')
    let rest := ps.drop (bodyAll.length + 1)
    let negate := ps.head? == some '^'
    let body := if negate then bodyAll.drop 1 else bodyAll
    let chars := classSetChars body
    (if negate then !(strMem c chars) else strMem c chars, rest)
  else
    (c == p || p == ['.'], p.tail)

/-- `match_helper` (src/match.py lines 20-70) with an explicit recursion
budget.  `match_helper_fuel 0 _ _ _ = none` models exceeding the
recursion limit; every recursive call of the source consumes one unit of
fuel.  The branch structure mirrors the source: empty-pattern base case,
per-call lowering when case-insensitive, `first_match` from
`char_matches`, then quantifier dispatch on the head of the remaining
pattern with Python `or`/`and` short-circuiting (a diverging first
operand of `or` propagates, modelled by `Option.bind`). -/
def match_helper_fuel : Nat → List Char → List Char → Bool → Option Bool
  | 0, _, _, _ => none
  | n + 1, text0, pattern0, cs =>
    if pattern0 = [] then some text0.isEmpty
    else
      let text := if cs then text0 else text0.map Char.toLower
      let pattern := if cs then pattern0 else pattern0.map Char.toLower
      let fm := char_matches (text.take 1) pattern
      if fm.2.head? == some '*' then
        (match_helper_fuel n text fm.2.tail cs).bind (fun a =>
          if a then some true
          else if fm.1 then match_helper_fuel n (text.drop 1) pattern cs
          else some false)
      else if fm.2.head? == some '+' then
        if fm.1 then match_helper_fuel n (text.drop 1) pattern cs else some false
      else if fm.2.head? == some '?' then
        (match_helper_fuel n text fm.2.tail cs).bind (fun a =>
          if a then some true
          else if fm.1 then match_helper_fuel n (text.drop 1) fm.2.tail cs
          else some false)
      else
        if fm.1 then match_helper_fuel n (text.drop 1) fm.2 cs else some false

/-- `match_helper` run with the canonical recursion budget
`|text| + |pattern| + 1`.  Every recursive call of the source either
shortens the remaining text or the remaining pattern, or repeats the
very same arguments (in which case the source diverges), so `none` here
coincides with a Python `RecursionError` and `some b` with the returned
boolean. -/
def match_helper (text pattern : List Char) (cs : Bool) : Option Bool :=
  match_helper_fuel (text.length + pattern.length + 1) text pattern cs

/-- `match_single_char` (src/match.py lines 72-80) with the recursion
budget for its inner `match_helper` call: validates the pattern (an
exception propagates), returns `False` on empty text, and otherwise
matches the one-character string `text[0]` against the pattern. -/
def match_single_char_fuel (fuel : Nat) (text pattern : List Char) (cs : Bool) :
    Option (Except String Bool) :=
  match validate_pattern pattern with
  | Except.error e => some (Except.error e)
  | Except.ok _ =>
    match text with
    | [] => some (Except.ok false)
    | c :: _ => (match_helper_fuel fuel [c] pattern cs).map Except.ok

/-- `match_single_char` at the canonical budget: the inner `match_helper`
call is on a text of length at most one, so `|pattern| + 2` fuel is the
canonical budget. -/
def match_single_char (text pattern : List Char) (cs : Bool) :
    Option (Except String Bool) :=
  match_single_char_fuel (pattern.length + 2) text pattern cs

/-- The `for i in range(len(text))` accumulation loop of `count_matches`
(src/match.py lines 87-90): processes the remaining index list, adding 1
for every start offset whose `match_single_char` test succeeds; an
exception (or divergence) in an iteration aborts the loop. -/
def count_loop (fuel : Nat) (text pattern : List Char) (cs : Bool) :
    Nat → List Nat → Option (Except String Nat)
  | acc, [] => some (Except.ok acc)
  | acc, i :: is =>
    match match_single_char_fuel fuel (text.drop i) pattern cs with
    | none => none
    | some (Except.error e) => some (Except.error e)
    | some (Except.ok b) => count_loop fuel text pattern cs (if b then acc + 1 else acc) is

/-- `count_matches` (src/match.py lines 82-91): validates the pattern,
then counts the start offsets `i` for which
`match_single_char(text[i:], pattern, case_sensitive)` is true. -/
def count_matches_fuel (fuel : Nat) (text pattern : List Char) (cs : Bool) :
    Option (Except String Nat) :=
  match validate_pattern pattern with
  | Except.error e => some (Except.error e)
  | Except.ok _ => count_loop fuel text pattern cs 0 (List.range text.length)

/-- `count_matches` at the canonical recursion budget (see
`match_single_char`). -/
def count_matches (text pattern : List Char) (cs : Bool) :
    Option (Except String Nat) :=
  count_matches_fuel (pattern.length + 2) text pattern cs

/-- `True` exactly when `validate_pattern` raises. -/
def validateRejects (pattern : List Char) : Bool :=
  match validate_pattern pattern with
  | Except.error _ => true
  | Except.ok _ => false

/-- `True` exactly when a fallible computation ended in a raised
(pattern-syntax) error rather than a value. -/
def isPatternError {α : Type} : Option (Except String α) → Bool
  | some (Except.error _) => true
  | _ => false

/-- The rejection condition exactly as claim C7 words it: the pattern
starts with `*`, `+` or `?`, or contains a doubled quantifier (`**`,
`++`, `??`), or has unequal counts of `[` and `]`. -/
def rejectedByClaim (pattern : List Char) : Bool :=
  pattern.head? == some '*' || pattern.head? == some '+' || pattern.head? == some '?' ||
  hasDouble '*' pattern || hasDouble '+' pattern || hasDouble '?' pattern ||
  pattern.count '[' != pattern.count ']'

/-- The count exactly as claim C1 words it: the number of start offsets
`i` in `[0, len(text))` such that some prefix of `text[i:]` whole-matches
the pattern (each offset counted once). -/
def countMatchesClaimed (text pattern : List Char) (cs : Bool) : Nat :=
  (List.range text.length).countP (fun i =>
    (List.range ((text.drop i).length + 1)).any (fun k =>
      (match_helper ((text.drop i).take k) pattern cs).getD false))

/-- `True` exactly when an `Option Bool` is `some true` wrapped in
`Except.ok`: the loop test `if match_single_char(...)`. -/
def isOkTrue : Option (Except String Bool) → Bool
  | some (Except.ok true) => true
  | _ => false

lemma bool_or_elim {a b : Bool} (h : (a || b) = true) : a = true ∨ b = true := by
  cases a <;> cases b <;> simp_all

lemma bool_or_false {a b : Bool} (h : ¬(a || b) = true) : a = false ∧ b = false := by
  cases a <;> cases b <;> simp_all

lemma bool_not_true {a : Bool} (h : ¬a = true) : a = false := by
  cases a <;> simp_all

lemma bool_and_elim {a b : Bool} (h : (a && b) = true) : a = true ∧ b = true := by
  cases a <;> cases b <;> simp_all

lemma contains_of_head (p : List Char) (q : Char) (h : p.head? = some q) :
    p.contains q = true := by
  cases p with
  | nil => simp at h
  | cons a t =>
    simp only [List.head?] at h
    cases h
    simp [List.contains_cons]

lemma contains_of_hasDouble (q : Char) :
    ∀ p : List Char, hasDouble q p = true → p.contains q = true
  | a :: b :: rest, h => by
    rw [hasDouble] at h
    rcases bool_or_elim h with h1 | h2
    · have ha : a = q := by
        have h1a := (bool_and_elim h1).1
        simpa using h1a
      subst ha
      simp [List.contains_cons]
    · have hr := contains_of_hasDouble q (b :: rest) h2
      simp only [List.contains_cons] at hr ⊢
      rw [hr, Bool.or_true]
  | [], h => by simp [hasDouble] at h
  | [_], h => by simp [hasDouble] at h

lemma contains_and_cond (p : List Char) (q : Char) :
    (p.contains q && (p.head? == some q || hasDouble q p))
      = (p.head? == some q || hasDouble q p) := by
  cases hb : (p.head? == some q || hasDouble q p) with
  | false => rw [Bool.and_false]
  | true =>
    rw [Bool.and_true]
    rcases bool_or_elim hb with h | h
    · exact contains_of_head p q (by simpa using h)
    · exact contains_of_hasDouble q p h

lemma validateRejects_eq (p : List Char) : validateRejects p = rejectedByClaim p := by
  unfold validateRejects validate_pattern rejectedByClaim
  rw [contains_and_cond p '*', contains_and_cond p '+', contains_and_cond p '?']
  by_cases h1 : (p.head? == some '*' || hasDouble '*' p) = true
  · rw [if_pos h1]
    rcases bool_or_elim h1 with h | h <;> simp [h]
  · rw [if_neg h1]
    have h1f := bool_or_false h1
    by_cases h2 : (p.head? == some '+' || hasDouble '+' p) = true
    · rw [if_pos h2]
      rcases bool_or_elim h2 with h | h <;> simp [h]
    · rw [if_neg h2]
      have h2f := bool_or_false h2
      by_cases h3 : (p.head? == some '?' || hasDouble '?' p) = true
      · rw [if_pos h3]
        rcases bool_or_elim h3 with h | h <;> simp [h]
      · rw [if_neg h3]
        have h3f := bool_or_false h3
        by_cases h4 : (p.count '[' != p.count ']') = true
        · rw [if_pos h4]
          simp [h4]
        · rw [if_neg h4]
          have h4f := bool_not_true h4
          simp [h1f.1, h1f.2, h2f.1, h2f.2, h3f.1, h3f.2, h4f]

/-- C7: the validator raises a syntax error exactly when the pattern
starts with `*`, `+` or `?`, contains a doubled quantifier, or has
unequal counts of `[` and `]`; a rejected pattern makes
`count_matches` and `match_single_char` surface that error, never a
boolean/count from the matcher. -/
theorem C7_validator_characterization (p t : List Char) (fuel : Nat) (cs : Bool) :
    validateRejects p = rejectedByClaim p
    ∧ (rejectedByClaim p = true →
        isPatternError (count_matches_fuel fuel t p cs) = true
        ∧ isPatternError (match_single_char_fuel fuel t p cs) = true) := by
  refine ⟨validateRejects_eq p, fun h => ?_⟩
  have hrej : validateRejects p = true := by rw [validateRejects_eq p]; exact h
  unfold validateRejects at hrej
  cases hv : validate_pattern p with
  | ok b => rw [hv] at hrej; cases hrej
  | error e =>
    constructor
    · unfold count_matches_fuel
      rw [hv]
      rfl
    · unfold match_single_char_fuel
      rw [hv]
      rfl

/-- C7 witness: `validate("a**")` and `validate("[abc")` raise, and with
the rejected pattern `a**` the counting entry point surfaces the error. -/
theorem C7_validator_witness :
    validateRejects ['a', '*', '*'] = true
    ∧ validateRejects ['[', 'a', 'b', 'c'] = true
    ∧ isPatternError (count_matches_fuel 5 ['x'] ['a', '*', '*'] true) = true := by
  have h1 := C7_validator_characterization ['a', '*', '*'] ['x'] 5 true
  have h2 := C7_validator_characterization ['[', 'a', 'b', 'c'] [] 0 true
  refine ⟨?_, ?_, (h1.2 (by decide)).1⟩
  · rw [h1.1]; decide
  · rw [h2.1]; decide

/-- C2: on text `"a"` with the class token `x = [a]`, the pattern `x+`
fails while `xx*` succeeds, so the one-or-more quantifier is not
equivalent to one occurrence followed by zero-or-more: the `+` branch
(line 64) recurses with the whole pattern unchanged and no branch ever
removes the `+` token, so an `x+` pattern can never be completed. -/
theorem C2_plus_star_inequivalence :
    match_helper ['a'] ['[', 'a', ']', '+'] true = some false
    ∧ match_helper ['a'] ['[', 'a', ']', '[', 'a', ']', '*'] true = some true := by
  decide

/-- C5: the exhausted-text sentinel `''` is accepted by a negated
character class (`'' not in chars` is true) and by a pattern that is
exactly the wildcard (`p == '.'` ignores `c`), so the empty text
whole-matches `[^a]` and `.`, although neither pattern is empty or made
of `*`/`?`-quantified tokens. -/
theorem C5_sentinel_accepted :
    match_helper [] ['[', '^', 'a', ']'] true = some true
    ∧ match_helper [] ['.'] true = some true := by
  decide

/-- C6: anchors receive no special handling: `^` and `$` are compared as
ordinary literal text (against the whole remaining pattern slice), so
`"^a"` rejects the non-empty text `"a"` whose remainder `"a"` matches,
and `"a$"` rejects the text `"a"` which ends at the `$`. -/
theorem C6_anchors_not_honored :
    match_helper ['a'] ['^', 'a'] true = some false
    ∧ match_helper ['a'] ['a'] true = some true
    ∧ match_helper ['a'] ['a', '$'] true = some false := by
  decide

/-- C3: on the validated pattern `[^a]+` and empty text the matcher
never returns: the sentinel is accepted by the negated class, so the `+`
branch calls `match_helper` with identical arguments, and no recursion
budget suffices (Python raises `RecursionError` instead of returning a
boolean). -/
lemma stepNegPlus (n : Nat) (cs : Bool) :
    match_helper_fuel (n + 1) [] ['[', '^', 'a', ']', '+'] cs
      = match_helper_fuel n [] ['[', '^', 'a', ']', '+'] cs := by
  cases cs <;> rfl

theorem C3_matcher_diverges (cs : Bool) :
    ∀ n : Nat, match_helper_fuel n [] ['[', '^', 'a', ']', '+'] cs = none := by
  intro n
  induction n with
  | zero => rfl
  | succ m ih =>
    rw [stepNegPlus m cs]
    exact ih

/-- C4: on the validated pattern `[^b]*c` and empty text the recursion
does not terminate at any depth, in particular not within
`|text| + |pattern|`: the `*` "consume" branch does not shorten the
empty text, and the negated class accepts the sentinel, giving a
recursive call with identical arguments. -/
lemma stepNegStar (n : Nat) (cs : Bool) :
    match_helper_fuel (n + 1) [] ['[', '^', 'b', ']', '*', 'c'] cs
      = (match_helper_fuel n [] ['c'] cs).bind (fun a =>
          if a then some true
          else match_helper_fuel n [] ['[', '^', 'b', ']', '*', 'c'] cs) := by
  cases cs <;> rfl

lemma stepLoneC (n : Nat) (cs : Bool) :
    match_helper_fuel (n + 1) [] ['c'] cs = some false := by
  cases cs <;> rfl

theorem C4_recursion_nonterminating (cs : Bool) :
    ∀ n : Nat, match_helper_fuel n [] ['[', '^', 'b', ']', '*', 'c'] cs = none := by
  intro n
  induction n with
  | zero => rfl
  | succ m ih =>
    rw [stepNegStar m cs]
    cases m with
    | zero => rfl
    | succ k =>
      rw [stepLoneC k cs]
      exact ih

lemma toLower_def (c : Char) :
    Char.toLower c
      = if c.toNat ≥ 65 ∧ c.toNat ≤ 90 then Char.ofNat (c.toNat + 32) else c := rfl

lemma char_toNat_ofNat_lt {n : Nat} (h : n < 55296) : (Char.ofNat n).toNat = n := by
  have hv : n.isValidChar := Or.inl h
  unfold Char.ofNat
  rw [dif_pos hv]
  rfl

lemma toLower_toLower (c : Char) :
    Char.toLower (Char.toLower c) = Char.toLower c := by
  by_cases h : c.toNat ≥ 65 ∧ c.toNat ≤ 90
  · have h1 : Char.toLower c = Char.ofNat (c.toNat + 32) := by
      rw [toLower_def, if_pos h]
    have hn : (Char.toLower c).toNat = c.toNat + 32 := by
      rw [h1]
      exact char_toNat_ofNat_lt (by omega)
    rw [toLower_def (Char.toLower c), if_neg (by rw [hn]; omega)]
  · have h1 : Char.toLower c = c := by rw [toLower_def, if_neg h]
    rw [h1]
    exact h1

lemma map_toLower_toLower (l : List Char) :
    (l.map Char.toLower).map Char.toLower = l.map Char.toLower := by
  induction l with
  | nil => rfl
  | cons a l ih =>
    simp only [List.map_cons]
    rw [toLower_toLower, ih]

lemma char_matches_snd_drop (c p : List Char) :
    ∃ k, (char_matches c p).2 = p.drop k := by
  unfold char_matches
  by_cases h : (p.head? == some '[' && p.contains ']') = true
  · rw [if_pos h]
    refine ⟨1 + ((p.tail.takeWhile (fun ch => ch != ']')).length + 1), ?_⟩
    show p.tail.drop ((p.tail.takeWhile (fun ch => ch != ']')).length + 1) = _
    rw [← List.drop_one, List.drop_drop]
  · rw [if_neg h]
    exact ⟨1, by rw [List.drop_one]⟩

lemma match_helper_fuel_lower :
    ∀ (fuel : Nat) (t p : List Char),
      match_helper_fuel fuel t p false
        = match_helper_fuel fuel (t.map Char.toLower) (p.map Char.toLower) true := by
  intro fuel
  induction fuel with
  | zero => intro t p; rfl
  | succ n ih =>
    intro t p
    by_cases hp : p = []
    · subst hp
      cases t <;> rfl
    · have hp2 : p.map Char.toLower ≠ [] := by simpa using hp
      have hidem_t := map_toLower_toLower t
      have hidem_p := map_toLower_toLower p
      obtain ⟨k, hk⟩ :=
        char_matches_snd_drop ((t.map Char.toLower).take 1) (p.map Char.toLower)
      have h2 : (char_matches ((t.map Char.toLower).take 1) (p.map Char.toLower)).2.map
          Char.toLower
          = (char_matches ((t.map Char.toLower).take 1) (p.map Char.toLower)).2 := by
        rw [hk, List.map_drop, hidem_p]
      have h3 : (char_matches ((t.map Char.toLower).take 1) (p.map Char.toLower)).2.tail.map
          Char.toLower
          = (char_matches ((t.map Char.toLower).take 1) (p.map Char.toLower)).2.tail := by
        rw [List.map_tail, h2]
      have h4 : ((t.map Char.toLower).drop 1).map Char.toLower
          = (t.map Char.toLower).drop 1 := by
        rw [List.map_drop, hidem_t]
      simp only [match_helper_fuel, if_neg hp, if_neg hp2, Bool.false_eq_true, if_false,
        if_true, ih, hidem_t, hidem_p, h2, h3, h4]

/-- C8: whole-matching with `case_sensitive=False` agrees with
whole-matching the lower-cased text against the lower-cased pattern with
`case_sensitive=True` (the matcher lowers both strings at every level of
the recursion, and lowering is idempotent). -/
theorem C8_case_insensitivity (t p : List Char) :
    match_helper t p false
      = match_helper (t.map Char.toLower) (p.map Char.toLower) true := by
  unfold match_helper
  rw [List.length_map, List.length_map]
  exact match_helper_fuel_lower (t.length + p.length + 1) t p

lemma msc_fuel_valid (fuel : Nat) (t p : List Char) (cs : Bool)
    (hv : validate_pattern p = Except.ok true) :
    match_single_char_fuel fuel t p cs
      = match t with
        | [] => some (Except.ok false)
        | c :: _ => (match_helper_fuel fuel [c] p cs).map Except.ok := by
  unfold match_single_char_fuel
  rw [hv]

/-- C9 counterexample: on the invalid pattern `**`, `match_single_char`
of the empty text raises a `ValueError` from validation instead of
returning `False`. -/
theorem C9_single_char_counterexample :
    match_single_char [] ['*', '*'] true ≠ some (Except.ok false) := by
  decide

/-- C9 (amended): for a pattern that passes validation,
`match_single_char` returns `False` on the empty text and otherwise the
`match_helper` result on the one-character string `text[0]`; its result
never depends on `text[1:]` (unconditionally, also for rejected
patterns). -/
theorem C9_single_char (fuel : Nat) (p : List Char) (cs : Bool) (c : Char)
    (rest rest1 : List Char) :
    (validate_pattern p = Except.ok true →
      match_single_char_fuel fuel [] p cs = some (Except.ok false)
      ∧ match_single_char_fuel fuel (c :: rest) p cs
          = (match_helper_fuel fuel [c] p cs).map Except.ok)
    ∧ match_single_char_fuel fuel (c :: rest) p cs
        = match_single_char_fuel fuel (c :: rest1) p cs := by
  constructor
  · intro hv
    constructor
    · rw [msc_fuel_valid fuel [] p cs hv]
    · rw [msc_fuel_valid fuel (c :: rest) p cs hv]
  · unfold match_single_char_fuel
    cases validate_pattern p <;> rfl

/-- C9 witness: concrete instances of the amended statement at pattern
`"a"`, with the validation hypothesis discharged. -/
theorem C9_single_char_witness :
    match_single_char_fuel 3 [] ['a'] true = some (Except.ok false)
    ∧ match_single_char_fuel 3 ['a', 'x'] ['a'] true
        = match_single_char_fuel 3 ['a', 'y'] ['a'] true := by
  have h := C9_single_char 3 ['a'] true 'a' ['x'] ['y']
  exact ⟨(h.1 (by decide)).1, h.2⟩

lemma count_loop_le (fuel : Nat) (t p : List Char) (cs : Bool) :
    ∀ (is : List Nat) (acc n : Nat),
      count_loop fuel t p cs acc is = some (Except.ok n) → n ≤ acc + is.length := by
  intro is
  induction is with
  | nil =>
    intro acc n h
    rw [count_loop] at h
    simp only [Option.some_inj] at h
    cases h
    simp
  | cons i is ih =>
    intro acc n h
    rw [count_loop] at h
    cases hm : match_single_char_fuel fuel (t.drop i) p cs with
    | none => rw [hm] at h; cases h
    | some r =>
      rw [hm] at h
      cases r with
      | error e => simp at h
      | ok b =>
        have h2 := ih (if b then acc + 1 else acc) n h
        simp only [List.length_cons]
        cases b <;> simp at h2 <;> omega

/-- C10 counterexample: on text `"a"` and the validated pattern
`[^b]*c`, `count_matches` never returns (the first offset reaches
`match_helper("", "[^b]*c")`, which calls itself with identical
arguments); the model yields `none` (a `RecursionError`) instead of an
integer `n ≤ len(T)`. -/
theorem C10_count_counterexample :
    count_matches ['a'] ['[', '^', 'b', ']', '*', 'c'] true = none := by
  decide

/-- C10 (amended): whenever `count_matches` does return a count, that
count is at most `len(text)`, and on the empty text every validated
pattern yields the count 0. -/
theorem C10_count_bound (fuel : Nat) (t p : List Char) (cs : Bool) (n : Nat) :
    (validate_pattern p = Except.ok true →
      count_matches_fuel fuel [] p cs = some (Except.ok 0))
    ∧ (count_matches_fuel fuel t p cs = some (Except.ok n) → n ≤ t.length) := by
  constructor
  · intro hv
    unfold count_matches_fuel
    rw [hv]
    rfl
  · intro h
    unfold count_matches_fuel at h
    cases hv : validate_pattern p with
    | error e => rw [hv] at h; simp at h
    | ok b =>
      rw [hv] at h
      have h2 := count_loop_le fuel t p cs (List.range t.length) 0 n h
      simpa using h2

/-- C10 witness: concrete instances of the amended statement, with both
hypotheses discharged (`count_matches("ab", "a") = 1 ≤ 2`). -/
theorem C10_count_bound_witness :
    count_matches_fuel 3 [] ['a'] true = some (Except.ok 0)
    ∧ (1 : Nat) ≤ (['a', 'b'] : List Char).length := by
  constructor
  · exact (C10_count_bound 3 [] ['a'] true 0).1 (by decide)
  · exact (C10_count_bound 3 ['a', 'b'] ['a'] true 1).2 (by decide)

lemma msc_fuel_valid_nil (fuel : Nat) (p : List Char) (cs : Bool)
    (hv : validate_pattern p = Except.ok true) :
    match_single_char_fuel fuel [] p cs = some (Except.ok false) := by
  unfold match_single_char_fuel
  rw [hv]

lemma msc_fuel_valid_cons (fuel : Nat) (c : Char) (rest p : List Char) (cs : Bool)
    (hv : validate_pattern p = Except.ok true) :
    match_single_char_fuel fuel (c :: rest) p cs
      = (match_helper_fuel fuel [c] p cs).map Except.ok := by
  unfold match_single_char_fuel
  rw [hv]

lemma isOkTrue_map_ok (x : Option Bool) :
    isOkTrue (x.map (Except.ok : Bool → Except String Bool)) = x.getD false := by
  cases x with
  | none => rfl
  | some b => cases b <;> rfl

/-- A test of the first character of a (possibly empty) text slice, with
`false` for the exhausted slice. -/
def headTest (g : Char → Bool) : List Char → Bool
  | [] => false
  | c :: _ => g c

lemma countP_range_headTest (g : Char → Bool) :
    ∀ l : List Char,
      (List.range l.length).countP (fun i => headTest g (l.drop i)) = l.countP g := by
  intro l
  induction l with
  | nil => rfl
  | cons c l ih =>
    rw [List.length_cons, List.range_succ_eq_map, List.countP_cons, List.countP_map,
      List.countP_cons]
    have hcomp : ((fun i => headTest g ((c :: l).drop i)) ∘ Nat.succ)
        = fun i => headTest g (l.drop i) := rfl
    rw [hcomp, ih]
    rfl

lemma drop_cons_of_lt (t : List Char) (i : Nat) (h : i < t.length) :
    ∃ c rest, t.drop i = c :: rest ∧ c ∈ t := by
  cases hd : t.drop i with
  | nil =>
    exfalso
    have hlen := congrArg List.length hd
    rw [List.length_drop] at hlen
    simp at hlen
    omega
  | cons c rest =>
    refine ⟨c, rest, rfl, ?_⟩
    have hcm : c ∈ t.drop i := by
      rw [hd]
      exact List.mem_cons_self c rest
    exact List.mem_of_mem_drop hcm

lemma count_loop_countP (fuel : Nat) (t p : List Char) (cs : Bool)
    (hv : validate_pattern p = Except.ok true) :
    ∀ (is : List Nat) (acc : Nat),
      (∀ i ∈ is, match_single_char_fuel fuel (t.drop i) p cs ≠ none) →
      count_loop fuel t p cs acc is
        = some (Except.ok (acc + is.countP (fun j =>
            isOkTrue (match_single_char_fuel fuel (t.drop j) p cs)))) := by
  intro is
  induction is with
  | nil =>
    intro acc _
    rw [count_loop]
    simp
  | cons i is ih =>
    intro acc h
    rw [count_loop]
    have hi := h i (List.mem_cons_self i is)
    cases hm : match_single_char_fuel fuel (t.drop i) p cs with
    | none => exact absurd hm hi
    | some r =>
      cases r with
      | error e =>
        exfalso
        rcases Decidable.em (t.drop i = []) with hd | hd
        · rw [hd, msc_fuel_valid_nil fuel p cs hv] at hm
          cases hm
        · obtain ⟨c, rest, hdr, _⟩ := drop_cons_of_lt t i (by
            by_contra hlen
            exact hd (List.drop_eq_nil_of_le (by omega)))
          rw [hdr, msc_fuel_valid_cons fuel c rest p cs hv] at hm
          cases hmm : match_helper_fuel fuel [c] p cs with
          | none => rw [hmm] at hm; cases hm
          | some b => rw [hmm] at hm; cases hm
      | ok b =>
        have ht : ∀ j ∈ is, match_single_char_fuel fuel (t.drop j) p cs ≠ none := by
          intro j hj
          exact h j (List.mem_cons_of_mem i hj)
        show count_loop fuel t p cs (if b then acc + 1 else acc) is
            = some (Except.ok (acc + (i :: is).countP (fun j =>
                isOkTrue (match_single_char_fuel fuel (t.drop j) p cs))))
        rw [ih (if b then acc + 1 else acc) ht]
        simp only [Option.some.injEq, Except.ok.injEq, List.countP_cons]
        have hPi : isOkTrue (match_single_char_fuel fuel (t.drop i) p cs) = b := by
          rw [hm]
          cases b <;> rfl
        simp only [hPi]
        cases b <;> simp <;> omega

/-- C1 counterexample: on text `"ab"` and pattern `[a][b]`, the number
of start offsets having some whole-matching prefix is 1 (the prefix
`"ab"` at offset 0 whole-matches), but `count_matches` returns 0: it
only ever tests the one-character string at each offset. -/
theorem C1_count_counterexample :
    count_matches ['a', 'b'] ['[', 'a', ']', '[', 'b', ']'] true = some (Except.ok 0)
    ∧ countMatchesClaimed ['a', 'b'] ['[', 'a', ']', '[', 'b', ']'] true = 1 := by
  decide

/-- C1 (amended): for a validated pattern, and whenever the
per-character matcher calls all terminate, `count_matches` returns the
number of individual characters `c` of the text whose one-character
string whole-matches the pattern (as the source docstring says, it
counts per-character matches, not per-offset prefix matches). -/
theorem C1_count_per_char (fuel : Nat) (t p : List Char) (cs : Bool)
    (hv : validate_pattern p = Except.ok true)
    (hs : ∀ c ∈ t, match_helper_fuel fuel [c] p cs ≠ none) :
    count_matches_fuel fuel t p cs
      = some (Except.ok (t.countP (fun c =>
          (match_helper_fuel fuel [c] p cs).getD false))) := by
  unfold count_matches_fuel
  rw [hv]
  have hnn : ∀ i ∈ List.range t.length,
      match_single_char_fuel fuel (t.drop i) p cs ≠ none := by
    intro i hi
    have hilen : i < t.length := List.mem_range.1 hi
    obtain ⟨c, rest, hdr, hcm⟩ := drop_cons_of_lt t i hilen
    rw [hdr, msc_fuel_valid_cons fuel c rest p cs hv]
    cases hmm : match_helper_fuel fuel [c] p cs with
    | none => exact absurd hmm (hs c hcm)
    | some b => simp
  rw [count_loop_countP fuel t p cs hv (List.range t.length) 0 hnn]
  simp only [Option.some.injEq, Except.ok.injEq, Nat.zero_add]
  rw [← countP_range_headTest (fun c => (match_helper_fuel fuel [c] p cs).getD false) t]
  apply List.countP_congr
  intro i hi
  have hilen : i < t.length := List.mem_range.1 hi
  obtain ⟨c, rest, hdr, _⟩ := drop_cons_of_lt t i hilen
  rw [hdr, msc_fuel_valid_cons fuel c rest p cs hv, isOkTrue_map_ok]
  exact Iff.rfl

/-- C1 witness: `count_matches("aaa", "a") = 3`, obtained from the
amended per-character characterisation with both hypotheses discharged. -/
theorem C1_count_per_char_witness :
    count_matches_fuel 3 ['a', 'a', 'a'] ['a'] true = some (Except.ok 3) := by
  rw [C1_count_per_char 3 ['a', 'a', 'a'] ['a'] true (by decide) (by decide)]
  decide
